import Mathlib

/-!
Verification development for the BioSpaceEngine core subsystems:
the Triple Generator (`ingestion/management/commands/generate_triples.py`),
the Embedding Index Builder (`ingestion/management/commands/build_faiss_index.py`),
the Semantic Retrieval Engine (`ingestion/services.py`), and the search
endpoint's aggregation and fallback logic (`ingestion/views.py`).

Machine floats of the source are modelled as rationals; database rows are
modelled as Lean structures and tables as lists in store order.
-/

namespace BioSpace

/-- One `Entity` row: `id` is the primary key, `entity_type` is the
possibly-absent type string (`organism`, `stressor`, ...). -/
structure EntityRec where
  id : Nat
  name : String
  entity_type : Option String
deriving DecidableEq, Repr

/-- One `Section` row: primary key, `section_type` and `title`. -/
structure SectionRec where
  id : Nat
  section_type : String
  title : String
deriving DecidableEq, Repr

/-- One `EntityOccurrence` row, carrying its related entity and section
(`select_related`), plus the start offset used only for ordering. -/
structure OccRec where
  entity : EntityRec
  sectionRef : Option SectionRec
  start_char : Nat
deriving DecidableEq, Repr

/-- The parse status of an `EvidenceSentence.embedding_vector` text field:
SQL `NULL`, the empty string, malformed JSON, or a vector that parses. -/
inductive EmbField where
  | null : EmbField
  | empty : EmbField
  | malformed : EmbField
  | valid : List ℚ → EmbField
deriving DecidableEq, Repr

/-- One `EvidenceSentence` row. -/
structure EvidRec where
  id : Nat
  study_id : Nat
  section_id : Option Nat
  sentence_text : String
  sentence_index : Nat
  char_start : Nat
  char_end : Nat
  embedding : EmbField
deriving DecidableEq, Repr

/-- The qualifiers dict `\x7bsection: ..., section_title: ...\x7d` attached to a
triple, modelled as the pair of its two optional values. -/
def Qualifiers := Option String × Option String
deriving instance DecidableEq, Repr for Qualifiers

/-- One `Triple` row: the identity tuple (study, subject, relation, object),
the optional evidence-sentence link, qualifiers, and confidence. -/
structure TripleRow where
  study : Nat
  subject : Nat
  relation : String
  object : Nat
  evidence : Option Nat
  qualifiers : Qualifiers
  confidence : ℚ
deriving DecidableEq, Repr

/-- Lowering of one character, as `str.lower` does on the ASCII range
(the only characters these stores exercise). -/
def lowerChar (c : Char) : Char :=
  if 'A' ≤ c ∧ c ≤ 'Z' then Char.ofNat (c.toNat + 32) else c

/-- Lowercase a string character by character (`str.lower`). -/
def lowerStr (s : String) : String := String.mk (s.data.map lowerChar)

/-- Whether `pat` occurs at the head of `hay` (character lists). -/
def charsStartWith : List Char → List Char → Bool
  | _, [] => true
  | [], _ :: _ => false
  | c :: cs, p :: ps => c == p && charsStartWith cs ps

/-- Whether `pat` occurs anywhere inside `hay` (Python `pat in hay`). -/
def charsContain (pat : List Char) : List Char → Bool
  | [] => pat.isEmpty
  | c :: rest => charsStartWith (c :: rest) pat || charsContain pat rest

/-- Case-insensitive containment: both sides lowered, then substring test.
Used for `name in text` after the source lowercases both, and for the
Django `icontains` lookups of the endpoint. -/
def strContainsLower (hay pat : String) : Bool :=
  charsContain (lowerStr pat).toList (lowerStr hay).toList

/-- The canonical form `(type_x or "other").lower()` used by
`Command._infer_relation`: `None` and the empty string become `other`,
anything else is lowercased. -/
def canonicalType (t : Option String) : String :=
  match t with
  | none => "other"
  | some s => if s = "" then "other" else lowerStr s

/-- `Command._infer_relation`: maps the two entity-type strings to a
relation label and a directionality flag, in the source's test order,
including the `pair <= \x7b"organism", "plant"\x7d` rule. -/
def inferRelation (typeA typeB : Option String) : String × Bool :=
  let a := canonicalType typeA
  let b := canonicalType typeB
  if a = "organism" ∧ b = "stressor" then ("affected_by", true)
  else if a = "organism" ∧ b = "outcome" then ("exhibits", true)
  else if a = "stressor" ∧ b = "outcome" then ("influences", true)
  else if a = "organism" ∧ b = "assay" then ("measured_by", true)
  else if a = b then ("related_to", false)
  else if (a = "organism" ∨ a = "plant") ∧ (b = "organism" ∨ b = "plant") then
    ("related_to", false)
  else ("associated_with", false)

/-- The priority table lookup `priority.get((t or "").lower(), 0)` of
`Command._apply_directional`. -/
def typePriority (t : Option String) : Nat :=
  let s := lowerStr (t.getD "")
  if s = "organism" then 3
  else if s = "stressor" then 2
  else if s = "outcome" then 2
  else if s = "assay" then 1
  else 0

/-- `Command._apply_directional`: equal scores break ties by lower id,
otherwise the higher-scored entity becomes the subject. -/
def applyDirectional (a b : EntityRec) : EntityRec × EntityRec :=
  let sa := typePriority a.entity_type
  let sb := typePriority b.entity_type
  if sa = sb then (if a.id < b.id then (a, b) else (b, a))
  else if sb ≤ sa then (a, b) else (b, a)

/-- Modelled from the spec: the type-priority score table as the spec
states it (organism=3, stressor=2, outcome=2, assay=1, unknown=0), on the
literal type strings of the data model. -/
def prioritySpec (t : Option String) : Nat :=
  match t with
  | some "organism" => 3
  | some "stressor" => 2
  | some "outcome" => 2
  | some "assay" => 1
  | _ => 0

/-- Modelled from the spec: orientation of a directional pair as the spec
words it — higher score becomes subject, ties broken by the lower internal
entity identifier becoming subject. -/
def orientSpec (a b : EntityRec) : EntityRec × EntityRec :=
  let sa := prioritySpec a.entity_type
  let sb := prioritySpec b.entity_type
  if sb < sa then (a, b)
  else if sa < sb then (b, a)
  else if a.id < b.id then (a, b) else (b, a)

/-- The declared `Entity.ENTITY_TYPES` choice keys of the data model. -/
def entityTypeKeys : List String :=
  ["organism", "tissue", "stressor", "platform", "assay", "outcome", "other"]

/-- An entity-type value actually storable by the data model: absent, or
one of the declared choice keys. -/
def ValidEntityType (t : Option String) : Prop :=
  t = none ∨ ∃ s ∈ entityTypeKeys, t = some s

instance (t : Option String) : Decidable (ValidEntityType t) := by
  unfold ValidEntityType
  infer_instance

/-- `Command._unique_entities`: reduce a section's occurrences to the
distinct entities present, first occurrence winning. -/
def uniqueEntities (occs : List OccRec) : List EntityRec :=
  occs.foldl
    (fun acc o => if acc.any (fun e => e.id == o.entity.id) then acc else acc ++ [o.entity])
    []

/-- The grouping key `occurrence.section_id or 0` of `handle`. -/
def occSectionKey (o : OccRec) : Nat :=
  match o.sectionRef with
  | some s => s.id
  | none => 0

/-- Insert an occurrence into the section-keyed group list, preserving
first-seen key order (Python `defaultdict` insertion order). -/
def groupInsert (groups : List (Nat × List OccRec)) (o : OccRec) : List (Nat × List OccRec) :=
  if groups.any (fun g => g.1 == occSectionKey o) then
    groups.map (fun g => if g.1 == occSectionKey o then (g.1, g.2 ++ [o]) else g)
  else groups ++ [(occSectionKey o, [o])]

/-- Partition occurrences into per-section groups, as the `defaultdict`
loop of `handle` does. -/
def groupBySection (occs : List OccRec) : List (Nat × List OccRec) :=
  occs.foldl groupInsert []

/-- `itertools.combinations(entities, 2)` in source order. -/
def pairsOf : List EntityRec → List (EntityRec × EntityRec)
  | [] => []
  | x :: xs => xs.map (fun y => (x, y)) ++ pairsOf xs

/-- `Command._find_evidence_sentence`: restrict the study's sentences to
the section when one exists, then return the first sentence whose lowered
text contains both (lowered) entity names. -/
def findEvidenceSentence (sentences : List EvidRec) (studyId : Nat)
    (a b : EntityRec) (sectionOpt : Option SectionRec) : Option EvidRec :=
  let candidates := sentences.filter (fun s =>
    s.study_id == studyId &&
      (match sectionOpt with
       | some sec => s.section_id == some sec.id
       | none => true))
  candidates.find? (fun s =>
    strContainsLower s.sentence_text a.name && strContainsLower s.sentence_text b.name)

/-- One pending upsert computed by the generation loop: the identity
tuple together with the resolved evidence link and qualifiers. -/
structure Job where
  study : Nat
  subject : Nat
  relation : String
  object : Nat
  evidence : Option Nat
  qualifiers : Qualifiers
deriving DecidableEq, Repr

/-- The jobs a single section group contributes: unique entities, pairs,
relation inference, orientation, and evidence resolution. -/
def groupJobs (studyId : Nat) (sentences : List EvidRec)
    (key : Nat) (occs : List OccRec) : List Job :=
  match occs with
  | [] => []
  | o :: _ =>
    let sectionOpt := if key ≠ 0 then o.sectionRef else none
    let entities := uniqueEntities occs
    (pairsOf entities).filterMap (fun p =>
      let rel := inferRelation p.1.entity_type p.2.entity_type
      if rel.1 = "" then none
      else
        let so := if rel.2 then applyDirectional p.1 p.2 else (p.1, p.2)
        let ev := findEvidenceSentence sentences studyId so.1 so.2 sectionOpt
        some {
          study := studyId
          subject := so.1.id
          relation := rel.1
          object := so.2.id
          evidence := ev.map (fun s => s.id)
          qualifiers := (sectionOpt.map (fun s => s.section_type),
                         sectionOpt.map (fun s => s.title)) })

/-- All jobs of one study pass, in processing order. -/
def studyJobs (studyId : Nat) (occs : List OccRec) (sentences : List EvidRec) : List Job :=
  ((groupBySection occs).map (fun g => groupJobs studyId sentences g.1 g.2)).flatten

/-- The identity tuple of a triple row. -/
def keyOf (r : TripleRow) : Nat × Nat × String × Nat :=
  (r.study, r.subject, r.relation, r.object)

/-- The identity tuple a job targets. -/
def jobKey (j : Job) : Nat × Nat × String × Nat :=
  (j.study, j.subject, j.relation, j.object)

/-- The identity tuples present in a triple table. -/
def keysOf (db : List TripleRow) : List (Nat × Nat × String × Nat) :=
  db.map keyOf

/-- The `Triple.objects.get_or_create` upsert of `handle`, together with
the conditional in-place evidence upgrade that follows it.  Returns the
new table and the `was_created` flag. -/
def upsertTriple (db : List TripleRow) (st subj : Nat) (rel : String) (obj : Nat)
    (ev : Option Nat) (q : Qualifiers) : List TripleRow × Bool :=
  match db with
  | [] =>
    ([{ study := st, subject := subj, relation := rel, object := obj,
        evidence := ev, qualifiers := q,
        confidence := if ev.isSome then mkRat 3 5 else mkRat 3 10 }], true)
  | r :: rest =>
    if keyOf r = (st, subj, rel, obj) then
      if ev.isSome ∧ r.evidence = none then
        ({ r with evidence := ev, qualifiers := q, confidence := mkRat 3 5 } :: rest, false)
      else (r :: rest, false)
    else
      let res := upsertTriple rest st subj rel obj ev q
      (r :: res.1, res.2)

/-- Apply one job's upsert to the table. -/
def applyJob (db : List TripleRow) (j : Job) : List TripleRow :=
  (upsertTriple db j.study j.subject j.relation j.object j.evidence j.qualifiers).1

/-- Run a list of upsert jobs over the table. -/
def runPass (jobs : List Job) (db : List TripleRow) : List TripleRow :=
  jobs.foldl applyJob db

/-- One full Triple Generator pass over a study without the clear flag:
compute the jobs from the (unchanged) occurrence and sentence stores and
fold their upserts over the triple table. -/
def processStudy (studyId : Nat) (occs : List OccRec) (sentences : List EvidRec)
    (db : List TripleRow) : List TripleRow :=
  runPass (studyJobs studyId occs sentences) db

/-- One row of the persisted metadata artifact of `build_faiss_index`. -/
structure MetaRow where
  id : Nat
  study_id : Nat
  sentence_text : String
  sentence_index : Nat
  char_start : Nat
  char_end : Nat
deriving DecidableEq, Repr

/-- The metadata dict appended for one evidence sentence by the builder. -/
def metaOf (s : EvidRec) : MetaRow :=
  { id := s.id, study_id := s.study_id, sentence_text := s.sentence_text,
    sentence_index := s.sentence_index, char_start := s.char_start,
    char_end := s.char_end }

/-- The `embedding_vector__isnull=False` plus `exclude(embedding_vector='')`
queryset filter of the builder. -/
def hasEmbeddingText (f : EmbField) : Bool :=
  match f with
  | .null => false
  | .empty => false
  | .malformed => true
  | .valid _ => true

/-- The builder's extraction loop: append the parsed embedding and the
metadata row in lockstep, skipping records whose embedding fails to parse. -/
def collectRows : List EvidRec → List (List ℚ) × List MetaRow
  | [] => ([], [])
  | s :: rest =>
    let tail := collectRows rest
    match s.embedding with
    | .valid v => (v :: tail.1, metaOf s :: tail.2)
    | _ => tail

/-- Possible outcomes of the `build_faiss_index` command: refusing to touch
an existing index without `--force`, a fatal `CommandError`, or a built
index with its parallel metadata, dimension and vector count. -/
inductive BuildOutcome where
  | skippedExisting : BuildOutcome
  | failed : String → BuildOutcome
  | built : List (List ℚ) → List MetaRow → Nat → Nat → BuildOutcome
deriving Repr

/-- `build_faiss_index.Command.handle` over the evidence store: the
existence/force gate, the with-embedding precondition, the extraction
loop, and the final index/metadata pair. -/
def buildFaissIndex (force indexExists : Bool) (sentences : List EvidRec) : BuildOutcome :=
  if !force && indexExists then .skippedExisting
  else
    let withEmb := sentences.filter (fun s => hasEmbeddingText s.embedding)
    if withEmb.isEmpty then
      .failed "No evidence sentences with embeddings found. Run generate_embeddings first."
    else
      let rows := collectRows withEmb
      if rows.1.isEmpty then .failed "No valid embeddings found"
      else .built rows.1 rows.2 ((rows.1.headI).length) rows.1.length

/-- The sentences of the store whose embedding field parses to a vector:
exactly those that contribute an index position. -/
def keptSentences (sentences : List EvidRec) : List EvidRec :=
  sentences.filter (fun s =>
    match s.embedding with
    | .valid _ => true
    | _ => false)

/-- The parsed vector of a kept sentence. -/
def embValue (s : EvidRec) : List ℚ :=
  match s.embedding with
  | .valid v => v
  | _ => []

/-- One hit returned by `SemanticSearchService.search`. -/
structure HitRec where
  evidence_id : Nat
  study_id : Nat
  sentence_text : String
  sentence_index : Nat
  similarity : ℚ
  rank : Nat
deriving DecidableEq, Repr

/-- The in-memory state of `SemanticSearchService`: optional embedding
model (a query-to-vector function), optional loaded index vectors, and
optional metadata list. -/
structure ServiceState where
  model : Option (String → List ℚ)
  index : Option (List (List ℚ))
  metadata : Option (List MetaRow)

/-- Rational addition computed through `mkRat`, so that concrete inner
products evaluate inside the kernel; proved equal to `+` below. -/
def ratAdd (a b : ℚ) : ℚ := mkRat (a.num * b.den + b.num * a.den) (a.den * b.den)

/-- Rational multiplication computed through `mkRat`; proved equal to `*`
below. -/
def ratMul (a b : ℚ) : ℚ := mkRat (a.num * b.num) (a.den * b.den)

/-- Inner product of two vectors (`faiss.IndexFlatIP` comparison). -/
def dotProduct (a b : List ℚ) : ℚ :=
  ((a.zip b).map (fun p => ratMul p.1 p.2)).foldl ratAdd 0

/-- Insert into a list sorted by `f` descending, after the last earlier
element of strictly greater score (a stable descending insertion). -/
def insertDescBy {α : Type} (f : α → ℚ) (x : α) : List α → List α
  | [] => [x]
  | y :: ys => if f x < f y then y :: insertDescBy f x ys else x :: y :: ys

/-- Stable insertion sort by `f` descending (Python `list.sort` with a
score key and `reverse=True`). -/
def sortDescBy {α : Type} (f : α → ℚ) : List α → List α
  | [] => []
  | x :: xs => insertDescBy f x (sortDescBy f xs)

/-- Modelled from the documented `faiss.IndexFlatIP.search` contract (the
library is external to the repository): score every stored position by
exact inner product with the query, order descending, return the first
`k` as (similarity, position) pairs. -/
def indexTopK (vecs : List (List ℚ)) (q : List ℚ) (k : Nat) : List (ℚ × Nat) :=
  (sortDescBy (fun p => p.1) ((vecs.map (fun v => dotProduct v q)).enum.map
    (fun p => (p.2, p.1)))).take k

/-- The result loop of `SemanticSearchService.search`: enumerate the raw
(similarity, position) pairs, keep those at or above the threshold whose
position is inside the metadata list, and annotate each with `i + 1`. -/
def searchHits (meta : List MetaRow) (raw : List (ℚ × Nat)) (threshold : ℚ) : List HitRec :=
  raw.enum.filterMap (fun p =>
    if h : threshold ≤ p.2.1 ∧ p.2.2 < meta.length then
      let m := meta.get ⟨p.2.2, h.2⟩
      some { evidence_id := m.id, study_id := m.study_id,
             sentence_text := m.sentence_text, sentence_index := m.sentence_index,
             similarity := p.2.1, rank := p.1 + 1 }
    else none)

/-- `SemanticSearchService.search`: the guard returning `[]` when the
index or metadata is absent (or the metadata list empty, which is falsy)
or the model is absent, then encode, top-k search, and filtering. -/
def ServiceState.search (st : ServiceState) (query : String) (top_k : Nat)
    (threshold : ℚ) : List HitRec :=
  match st.index, st.metadata, st.model with
  | some idx, some meta, some m =>
    if meta.isEmpty then []
    else searchHits meta (indexTopK idx (m query) top_k) threshold
  | _, _, _ => []

/-- `SemanticSearchService.is_available`: checks only index and metadata. -/
def ServiceState.is_available (st : ServiceState) : Bool :=
  st.index.isSome && st.metadata.isSome

/-- The environment `SemanticSearchService.__init__` loads from:
whether the sentence-transformers import succeeded and what constructing
the model then yields (an exception or a model), whether a descriptor row
named `evidence_search` exists, whether the faiss import succeeded, and
the outcomes of reading the two artifacts. -/
structure LoadEnv where
  transformerLib : Option (Except String (String → List ℚ))
  descriptorExists : Bool
  faissLib : Bool
  indexRead : Except String (List (List ℚ))
  metadataRead : Except String (List MetaRow)

/-- `SemanticSearchService._load_model`: a missing library leaves the
model unset; a constructor error propagates (there is no try/except). -/
def loadModel (lib : Option (Except String (String → List ℚ))) :
    Except String (Option (String → List ℚ)) :=
  match lib with
  | none => .ok none
  | some (.error e) => .error e
  | some (.ok m) => .ok (some m)

/-- `SemanticSearchService._load_index`: a missing descriptor or faiss
library returns with both fields unset; any read error is caught and
resets both fields to `None`. -/
def loadIndex (env : LoadEnv) : Option (List (List ℚ)) × Option (List MetaRow) :=
  if !env.descriptorExists then (none, none)
  else if !env.faissLib then (none, none)
  else
    match env.indexRead with
    | .error _ => (none, none)
    | .ok idx =>
      match env.metadataRead with
      | .error _ => (none, none)
      | .ok meta => (some idx, some meta)

/-- `SemanticSearchService.__init__`: load the model then the index; a
model-constructor exception propagates out of construction. -/
def initService (env : LoadEnv) : Except String ServiceState :=
  match loadModel env.transformerLib with
  | .error e => .error e
  | .ok m =>
    let li := loadIndex env
    .ok { model := m, index := li.1, metadata := li.2 }

/-- One study row as the endpoint's text fallback sees it. -/
structure StudyRec where
  id : Nat
  title : String
  abstract : String
deriving DecidableEq, Repr

/-- One per-study bucket of the endpoint's `studies_dict`: the appended
(evidence id, similarity) entries and the running `max_similarity`. -/
structure StudyBucket where
  study : Nat
  entries : List (Nat × ℚ)
  maxSim : ℚ
deriving DecidableEq, Repr

/-- One row of the endpoint's `results` list (the study id standing for
the serialized study, the evidence ids for the serialized sentences). -/
structure SearchResultRow where
  study : Nat
  evidence : List Nat
  relevance_score : ℚ
deriving DecidableEq, Repr

/-- The `next(...)` lookup of the endpoint: the similarity of the first
hit carrying this evidence id, defaulting to 0.0. -/
def firstSim (hits : List HitRec) (eid : Nat) : ℚ :=
  match hits.find? (fun h => h.evidence_id == eid) with
  | some h => h.similarity
  | none => 0

/-- Append one (evidence, similarity) entry to the bucket of study `sid`
and fold the similarity into its running maximum; other buckets pass
through unchanged. -/
def bumpBucket (eid : Nat) (sim : ℚ) (sid : Nat) (b : StudyBucket) : StudyBucket :=
  if b.study == sid then
    { study := b.study, entries := b.entries ++ [(eid, sim)],
      maxSim := max b.maxSim sim }
  else b

/-- One iteration of the endpoint's grouping loop: skip studies outside
the allow-list, append the (evidence, similarity) entry to the study's
bucket, creating it with `max_similarity = 0.0` first. -/
def insertEvid (hits : List HitRec) (allowed : List Nat)
    (dict : List StudyBucket) (e : EvidRec) : List StudyBucket :=
  if e.study_id ∈ allowed then
    let sim := firstSim hits e.id
    if dict.any (fun b => b.study == e.study_id) then
      dict.map (bumpBucket e.id sim e.study_id)
    else dict ++ [{ study := e.study_id, entries := [(e.id, sim)], maxSim := max 0 sim }]
  else dict

/-- The endpoint's grouping pass: the evidence rows found for the hit ids
(in store order), folded through the bucket-building loop. -/
def groupHits (hits : List HitRec) (evStore : List EvidRec)
    (allowed : List Nat) : List StudyBucket :=
  (evStore.filter (fun e => hits.any (fun h => h.evidence_id == e.id))).foldl
    (insertEvid hits allowed) []

/-- A bucket rendered as a result row. -/
def bucketToRow (b : StudyBucket) : SearchResultRow :=
  { study := b.study, evidence := b.entries.map (fun p => p.1),
    relevance_score := b.maxSim }

/-- The endpoint's semantic aggregation: group, render, sort by relevance
score descending, truncate to the caller's limit. -/
def aggregateHits (hits : List HitRec) (evStore : List EvidRec)
    (allowed : List Nat) (limit : Nat) : List SearchResultRow :=
  (sortDescBy (fun r => r.relevance_score)
    ((groupHits hits evStore allowed).map bucketToRow)).take limit

/-- The similarities of the grouped entries the endpoint builds for one
study: the store rows matching some hit and belonging to the study, each
contributing the first matching hit's similarity. -/
def studyGroupSims (hits : List HitRec) (evStore : List EvidRec) (s : Nat) : List ℚ :=
  ((evStore.filter (fun e => hits.any (fun h => h.evidence_id == e.id))).filter
    (fun e => e.study_id == s)).map (fun e => firstSim hits e.id)

/-- Invariant of the endpoint's grouping loop, relating the bucket list
to the evidence rows already processed: bucket studies are distinct and
allowed, each bucket's entries are exactly the processed rows of its
study with their first-hit similarities, its running maximum is the fold
of `max` over those similarities started at 0, and every processed
allowed row already has a bucket. -/
def GroupInv (hits : List HitRec) (allowed : List Nat)
    (dict : List StudyBucket) (processed : List EvidRec) : Prop :=
  (dict.map (fun b => b.study)).Nodup ∧
  (∀ b ∈ dict, b.study ∈ allowed ∧
      b.entries = (processed.filter (fun e => e.study_id == b.study)).map
        (fun e => (e.id, firstSim hits e.id)) ∧
      b.maxSim = (b.entries.map (fun p => p.2)).foldl max 0) ∧
  (∀ e ∈ processed, e.study_id ∈ allowed → e.study_id ∈ dict.map (fun b => b.study))

/-- The three labels of the endpoint's `search_type` response field. -/
inductive SearchMode where
  | filtered : SearchMode
  | semantic : SearchMode
  | text : SearchMode
deriving DecidableEq, Repr

/-- The endpoint's response: result rows, total, echoed query, and mode. -/
structure SearchResponse where
  results : List SearchResultRow
  total : Nat
  query : String
  search_type : SearchMode
deriving DecidableEq, Repr

/-- The substring fallback of the endpoint: filtered studies whose title
or abstract contains the query (case-insensitively), truncated to the
limit, each with up to five matching evidence sentences and score 1.0. -/
def textFallback (evStore : List EvidRec) (filteredStudies : List StudyRec)
    (query : String) (limit : Nat) : SearchResponse :=
  let rows := ((filteredStudies.filter (fun s =>
      strContainsLower s.title query || strContainsLower s.abstract query)).take limit).map
    (fun s =>
      { study := s.id,
        evidence := ((evStore.filter (fun e =>
          e.study_id == s.id && strContainsLower e.sentence_text query)).take 5).map
          (fun e => e.id),
        relevance_score := (1 : ℚ) })
  { results := rows, total := rows.length, query := query, search_type := .text }

/-- `StudyViewSet.search`: the no-query filtered mode, the semantic path
(taken whenever the engine is available and the raw hit list is
non-empty, regardless of how aggregation filters it), and the text
fallback otherwise.  `filteredStudies` stands for the metadata-filtered
queryset; the allow-list is its id set. -/
def studySearch (st : ServiceState) (evStore : List EvidRec)
    (filteredStudies : List StudyRec) (query : String) (limit : Nat)
    (threshold : ℚ) : SearchResponse :=
  if query = "" then
    let rows := (filteredStudies.take limit).map (fun s =>
      { study := s.id, evidence := ([] : List Nat), relevance_score := (1 : ℚ) })
    { results := rows, total := rows.length, query := "", search_type := .filtered }
  else
    let allowed := filteredStudies.map (fun s => s.id)
    if st.is_available then
      let hits := st.search query (limit * 2) threshold
      if hits.isEmpty then textFallback evStore filteredStudies query limit
      else
        let rows := aggregateHits hits evStore allowed limit
        { results := rows, total := rows.length, query := query, search_type := .semantic }
    else textFallback evStore filteredStudies query limit

/-- The unordered reading of the four directional rules of the spec: the
pair of types matches organism+stressor, organism+outcome,
stressor+outcome, or organism+assay in either order. -/
def DirectionalRuleMatch (ta tb : Option String) : Prop :=
  let a := canonicalType ta
  let b := canonicalType tb
  (a = "organism" ∧ b = "stressor") ∨ (b = "organism" ∧ a = "stressor") ∨
  (a = "organism" ∧ b = "outcome") ∨ (b = "organism" ∧ a = "outcome") ∨
  (a = "stressor" ∧ b = "outcome") ∨ (b = "stressor" ∧ a = "outcome") ∨
  (a = "organism" ∧ b = "assay") ∨ (b = "organism" ∧ a = "assay")

instance (ta tb : Option String) : Decidable (DirectionalRuleMatch ta tb) := by
  unfold DirectionalRuleMatch
  infer_instance

/-- Concrete metadata row used to evaluate the definitions on closed
inputs. -/
def exMeta : MetaRow :=
  { id := 11, study_id := 7, sentence_text := "s", sentence_index := 0,
    char_start := 0, char_end := 1 }

/-- Concrete loaded service state: one indexed unit vector. -/
def exService : ServiceState :=
  { model := some (fun _ => [1]), index := some [[1]], metadata := some [exMeta] }

/-- The hit `exService` returns for any query at threshold 0. -/
def exHit : HitRec :=
  { evidence_id := 11, study_id := 7, sentence_text := "s", sentence_index := 0,
    similarity := 1, rank := 1 }

/-- Concrete evidence row matching `exMeta`, with no stored embedding. -/
def exEvid : EvidRec :=
  { id := 11, study_id := 7, section_id := none, sentence_text := "s",
    sentence_index := 0, char_start := 0, char_end := 1, embedding := .null }

/-- Concrete evidence row with a parseable embedding. -/
def exEvidValid : EvidRec :=
  { id := 12, study_id := 7, section_id := none, sentence_text := "t",
    sentence_index := 1, char_start := 2, char_end := 3,
    embedding := .valid [1, 0] }

/-- A hit whose similarity is negative (reachable through a caller-chosen
negative threshold). -/
def negHit : HitRec :=
  { evidence_id := 11, study_id := 7, sentence_text := "s", sentence_index := 0,
    similarity := mkRat (-1) 2, rank := 1 }

/-- Load environment with the transformer library missing but with a
descriptor, the faiss library, and readable artifacts. -/
def exModelMissingEnv : LoadEnv :=
  { transformerLib := none, descriptorExists := true, faissLib := true,
    indexRead := .ok [[1]], metadataRead := .ok [exMeta] }

/-- Load environment with no `evidence_search` descriptor row. -/
def exNoDescriptorEnv : LoadEnv :=
  { transformerLib := none, descriptorExists := false, faissLib := true,
    indexRead := .ok [], metadataRead := .ok [] }

/-- The service state with nothing loaded. -/
def exEmptyState : ServiceState := { model := none, index := none, metadata := none }

/-- Concrete organism entity. -/
def exMouse : EntityRec := { id := 1, name := "Mouse", entity_type := some "organism" }

/-- Concrete stressor entity. -/
def exMicrogravity : EntityRec :=
  { id := 2, name := "Microgravity", entity_type := some "stressor" }

/-- Concrete outcome entity. -/
def exBoneLoss : EntityRec := { id := 3, name := "BoneLoss", entity_type := some "outcome" }

/-- Occurrences of the three example entities in one sectionless group. -/
def exOccs : List OccRec :=
  [{ entity := exMouse, sectionRef := none, start_char := 0 },
   { entity := exMicrogravity, sectionRef := none, start_char := 5 },
   { entity := exBoneLoss, sectionRef := none, start_char := 9 }]

/-- A pre-existing triple row without an evidence link. -/
def exTriple : TripleRow :=
  { study := 1, subject := 1, relation := "affected_by", object := 2,
    evidence := none, qualifiers := (none, none), confidence := mkRat 3 10 }

theorem ratAdd_eq (a b : ℚ) : ratAdd a b = a + b := by
  have ha : (a.den : ℚ) ≠ 0 := by exact_mod_cast a.den_nz
  have hb : (b.den : ℚ) ≠ 0 := by exact_mod_cast b.den_nz
  unfold ratAdd
  rw [Rat.mkRat_eq_div]
  push_cast
  conv_rhs => rw [← Rat.num_div_den a, ← Rat.num_div_den b]
  rw [div_add_div _ _ ha hb]
  ring_nf

theorem ratMul_eq (a b : ℚ) : ratMul a b = a * b := by
  have ha : (a.den : ℚ) ≠ 0 := by exact_mod_cast a.den_nz
  have hb : (b.den : ℚ) ≠ 0 := by exact_mod_cast b.den_nz
  unfold ratMul
  rw [Rat.mkRat_eq_div]
  push_cast
  conv_rhs => rw [← Rat.num_div_den a, ← Rat.num_div_den b]
  rw [div_mul_div_comm]

theorem mem_insertDescBy {α : Type} (f : α → ℚ) (x a : α) (l : List α) :
    a ∈ insertDescBy f x l ↔ a = x ∨ a ∈ l := by
  induction l with
  | nil => simp [insertDescBy]
  | cons y ys ih =>
    unfold insertDescBy
    by_cases h : f x < f y
    · simp only [if_pos h, List.mem_cons, ih]
      tauto
    · simp only [if_neg h, List.mem_cons]

theorem pairwise_insertDescBy {α : Type} (f : α → ℚ) (x : α) (l : List α)
    (h : l.Pairwise (fun u v => f v ≤ f u)) :
    (insertDescBy f x l).Pairwise (fun u v => f v ≤ f u) := by
  induction l with
  | nil => simp [insertDescBy]
  | cons y ys ih =>
    unfold insertDescBy
    rcases List.pairwise_cons.mp h with ⟨hy, hys⟩
    by_cases hlt : f x < f y
    · rw [if_pos hlt]
      refine List.pairwise_cons.mpr ⟨?_, ih hys⟩
      intro a ha
      rcases (mem_insertDescBy f x a ys).mp ha with rfl | ha
      · exact le_of_lt hlt
      · exact hy a ha
    · rw [if_neg hlt]
      refine List.pairwise_cons.mpr ⟨?_, h⟩
      intro a ha
      rcases List.mem_cons.mp ha with rfl | ha
      · exact le_of_not_lt hlt
      · exact le_trans (hy a ha) (le_of_not_lt hlt)

theorem mem_sortDescBy {α : Type} (f : α → ℚ) (a : α) (l : List α) :
    a ∈ sortDescBy f l ↔ a ∈ l := by
  induction l with
  | nil => simp [sortDescBy]
  | cons x xs ih =>
    unfold sortDescBy
    rw [mem_insertDescBy, ih, List.mem_cons]

theorem pairwise_sortDescBy {α : Type} (f : α → ℚ) (l : List α) :
    (sortDescBy f l).Pairwise (fun u v => f v ≤ f u) := by
  induction l with
  | nil => simp [sortDescBy]
  | cons x xs ih => exact pairwise_insertDescBy f x _ ih

/-- C1 counterexample: the pair-to-relation function is not commutative
for the organism/stressor type pair — presented as (organism, stressor)
it yields `affected_by` (directional), presented as (stressor, organism)
it yields `associated_with` (non-directional). -/
theorem C1_order_dependence_counterexample :
    inferRelation (some "organism") (some "stressor") = ("affected_by", true) ∧
    inferRelation (some "stressor") (some "organism") = ("associated_with", false) ∧
    inferRelation (some "organism") (some "stressor") ≠
      inferRelation (some "stressor") (some "organism") := by
  decide

/-- C1 (amended): when the organism-typed entity is presented first and
the stressor-typed entity second, the inferred relation is `affected_by`
(directional) and the orientation step makes the organism the subject
whichever order its two arguments arrive in; in the reversed
presentation order the relation inference instead returns
`associated_with` (non-directional), so the inference is not commutative
for this type pair. -/
theorem C1_affected_by_organism_subject (a b : EntityRec)
    (ha : a.entity_type = some "organism") (hb : b.entity_type = some "stressor") :
    inferRelation a.entity_type b.entity_type = ("affected_by", true) ∧
    applyDirectional a b = (a, b) ∧
    applyDirectional b a = (a, b) ∧
    inferRelation b.entity_type a.entity_type = ("associated_with", false) := by
  rw [ha, hb]
  have h3 : typePriority (some "organism") = 3 := by decide
  have h2 : typePriority (some "stressor") = 2 := by decide
  refine ⟨by decide, ?_, ?_, by decide⟩
  · unfold applyDirectional
    rw [ha, hb, h3, h2]
    norm_num
  · unfold applyDirectional
    rw [ha, hb, h3, h2]
    norm_num

theorem C1_affected_by_organism_subject_witness :
    inferRelation (some "organism") (some "stressor") = ("affected_by", true) ∧
    applyDirectional { id := 1, name := "Mouse", entity_type := some "organism" }
        { id := 2, name := "Microgravity", entity_type := some "stressor" } =
      ({ id := 1, name := "Mouse", entity_type := some "organism" },
       { id := 2, name := "Microgravity", entity_type := some "stressor" }) := by
  have h := C1_affected_by_organism_subject
    { id := 1, name := "Mouse", entity_type := some "organism" }
    { id := 2, name := "Microgravity", entity_type := some "stressor" } rfl rfl
  exact ⟨h.1, h.2.1⟩

/-- C7 counterexample: the distinct-type pair (organism, plant) matches
none of the four directional rules yet is mapped to `related_to`, not
`associated_with`, so `related_to` is not produced only for
identical-type pairs. -/
theorem C7_plant_counterexample :
    inferRelation (some "organism") (some "plant") = ("related_to", false) ∧
    inferRelation (some "plant") (some "organism") = ("related_to", false) ∧
    canonicalType (some "organism") ≠ canonicalType (some "plant") ∧
    (inferRelation (some "organism") (some "plant")).1 ≠ "associated_with" := by
  decide

/-- C7 (amended): relation inference is total over the six labels
`affected_by`, `exhibits`, `influences`, `measured_by`, `related_to`,
`associated_with`; a distinct-type pair matching none of the four
directional rules is mapped to `associated_with` (non-directional)
unless both canonical types lie in the organism/plant set; `related_to`
is produced only for identical-type pairs and organism/plant pairs, and
conversely every identical-type pair and every organism/plant pair is
mapped to `related_to` (non-directional). -/
theorem C7_totality_and_default (ta tb : Option String) :
    (inferRelation ta tb).1 ∈
      ["affected_by", "exhibits", "influences", "measured_by",
       "related_to", "associated_with"] ∧
    (canonicalType ta ≠ canonicalType tb →
      ¬ DirectionalRuleMatch ta tb →
      ¬ ((canonicalType ta = "organism" ∨ canonicalType ta = "plant") ∧
         (canonicalType tb = "organism" ∨ canonicalType tb = "plant")) →
      inferRelation ta tb = ("associated_with", false)) ∧
    ((inferRelation ta tb).1 = "related_to" →
      canonicalType ta = canonicalType tb ∨
      ((canonicalType ta = "organism" ∨ canonicalType ta = "plant") ∧
       (canonicalType tb = "organism" ∨ canonicalType tb = "plant"))) ∧
    (canonicalType ta = canonicalType tb →
      inferRelation ta tb = ("related_to", false)) ∧
    (((canonicalType ta = "organism" ∨ canonicalType ta = "plant") ∧
      (canonicalType tb = "organism" ∨ canonicalType tb = "plant")) →
      inferRelation ta tb = ("related_to", false)) := by
  unfold inferRelation DirectionalRuleMatch
  dsimp only
  split_ifs with h1 h2 h3 h4 h5 h6
  · refine ⟨by decide, fun _ hd _ => absurd (Or.inl h1) hd,
      fun h => absurd h (by decide), ?_, ?_⟩
    · intro hab
      rw [h1.1, h1.2] at hab
      exact absurd hab (by decide)
    · intro hp
      rw [h1.2] at hp
      rcases hp.2 with h | h <;> exact absurd h (by decide)
  · refine ⟨by decide, fun _ hd _ => absurd (Or.inr (Or.inr (Or.inl h2))) hd,
      fun h => absurd h (by decide), ?_, ?_⟩
    · intro hab
      rw [h2.1, h2.2] at hab
      exact absurd hab (by decide)
    · intro hp
      rw [h2.2] at hp
      rcases hp.2 with h | h <;> exact absurd h (by decide)
  · refine ⟨by decide,
      fun _ hd _ => absurd (Or.inr (Or.inr (Or.inr (Or.inr (Or.inl h3))))) hd,
      fun h => absurd h (by decide), ?_, ?_⟩
    · intro hab
      rw [h3.1, h3.2] at hab
      exact absurd hab (by decide)
    · intro hp
      rw [h3.1] at hp
      rcases hp.1 with h | h <;> exact absurd h (by decide)
  · refine ⟨by decide,
      fun _ hd _ => absurd (Or.inr (Or.inr (Or.inr (Or.inr (Or.inr (Or.inr (Or.inl h4))))))) hd,
      fun h => absurd h (by decide), ?_, ?_⟩
    · intro hab
      rw [h4.1, h4.2] at hab
      exact absurd hab (by decide)
    · intro hp
      rw [h4.2] at hp
      rcases hp.2 with h | h <;> exact absurd h (by decide)
  · exact ⟨by decide, fun hne _ _ => absurd h5 hne, fun _ => Or.inl h5,
      fun _ => rfl, fun _ => rfl⟩
  · exact ⟨by decide, fun _ _ hp => absurd h6 hp, fun _ => Or.inr h6,
      fun _ => rfl, fun _ => rfl⟩
  · exact ⟨by decide, fun _ _ _ => rfl, fun h => absurd h (by decide),
      fun hab => absurd hab h5, fun hp => absurd hp h6⟩

theorem C7_totality_and_default_witness :
    (inferRelation (some "tissue") (some "platform")).1 ∈
      ["affected_by", "exhibits", "influences", "measured_by",
       "related_to", "associated_with"] ∧
    inferRelation (some "tissue") (some "platform") = ("associated_with", false) ∧
    inferRelation (some "tissue") (some "tissue") = ("related_to", false) ∧
    inferRelation (some "plant") (some "organism") = ("related_to", false) := by
  have h1 := C7_totality_and_default (some "tissue") (some "platform")
  have h2 := C7_totality_and_default (some "tissue") (some "tissue")
  have h3 := C7_totality_and_default (some "plant") (some "organism")
  exact ⟨h1.1, h1.2.1 (by decide) (by decide) (by decide),
    h2.2.2.2.1 (by decide), h3.2.2.2.2 (by decide)⟩

/-- C8: for directional relations the orientation produced by the source
coincides with the spec's rule — the entity whose type has the higher
priority score (organism=3, stressor=2, outcome=2, assay=1, anything
else=0) becomes the subject, and equal scores are broken by the lower
internal entity id — for every pair of entities whose types are values
the data model can store. -/
theorem C8_directional_orientation (a b : EntityRec)
    (ha : ValidEntityType a.entity_type) (hb : ValidEntityType b.entity_type) :
    applyDirectional a b = orientSpec a b := by
  have key : ∀ t : Option String, ValidEntityType t → typePriority t = prioritySpec t := by
    intro t ht
    rcases ht with rfl | ⟨s, hs, rfl⟩
    · decide
    · fin_cases hs <;> decide
  unfold applyDirectional orientSpec
  dsimp only
  rw [key a.entity_type ha, key b.entity_type hb]
  set pa := prioritySpec a.entity_type
  set pb := prioritySpec b.entity_type
  rcases Nat.lt_trichotomy pa pb with h | h | h
  · have h1 : ¬(pa = pb) := by omega
    have h2 : ¬(pb ≤ pa) := by omega
    have h3 : ¬(pb < pa) := by omega
    rw [if_neg h1, if_neg h2, if_neg h3, if_pos h]
  · have h3 : ¬(pb < pa) := by omega
    have h4 : ¬(pa < pb) := by omega
    rw [if_pos h, if_neg h3, if_neg h4]
  · have h1 : ¬(pa = pb) := by omega
    have h2 : pb ≤ pa := by omega
    rw [if_neg h1, if_pos h2, if_pos h]

theorem searchHits_mem_le (meta : List MetaRow) (raw : List (ℚ × Nat)) (threshold : ℚ)
    (h : HitRec) (hh : h ∈ searchHits meta raw threshold) :
    threshold ≤ h.similarity ∧ 1 ≤ h.rank := by
  unfold searchHits at hh
  rw [List.mem_filterMap] at hh
  obtain ⟨p, _, he⟩ := hh
  dsimp only at he
  split at he
  next hc =>
    cases he
    exact ⟨hc.1, Nat.le_add_left 1 p.1⟩
  next => cases he

/-- C3: every hit returned by the semantic search operation has
similarity at least the supplied threshold, and carries a 1-based rank. -/
theorem C3_threshold_and_rank (st : ServiceState) (query : String) (top_k : Nat)
    (threshold : ℚ) (hit : HitRec) (h : hit ∈ st.search query top_k threshold) :
    threshold ≤ hit.similarity ∧ 1 ≤ hit.rank := by
  rcases st with ⟨m, i, md⟩
  unfold ServiceState.search at h
  cases i with
  | none => cases m <;> cases md <;> simp at h
  | some idx =>
    cases md with
    | none => cases m <;> simp at h
    | some meta =>
      cases m with
      | none => simp at h
      | some f =>
        dsimp only at h
        split at h
        · simp at h
        · exact searchHits_mem_le meta _ threshold hit h

theorem C3_threshold_and_rank_witness : (0 : ℚ) ≤ 1 ∧ 1 ≤ 1 :=
  C3_threshold_and_rank exService "q" 1 0 exHit (by decide)

theorem search_nil_of_unavailable (st : ServiceState) (q : String) (k : Nat) (th : ℚ)
    (h : st.is_available = false) : st.search q k th = [] := by
  rcases st with ⟨m, i, md⟩
  unfold ServiceState.is_available at h
  unfold ServiceState.search
  cases i with
  | none => cases md <;> cases m <;> rfl
  | some idx =>
    cases md with
    | none => cases m <;> rfl
    | some meta => simp at h

theorem search_nil_of_model_none (st : ServiceState) (q : String) (k : Nat) (th : ℚ)
    (h : st.model = none) : st.search q k th = [] := by
  rcases st with ⟨m, i, md⟩
  dsimp only at h
  subst h
  unfold ServiceState.search
  cases i <;> cases md <;> rfl

theorem loadIndex_fail (env : LoadEnv)
    (h : env.descriptorExists = false ∨ env.faissLib = false ∨
      (∃ e, env.indexRead = .error e) ∨ (∃ e, env.metadataRead = .error e)) :
    loadIndex env = (none, none) := by
  rcases env with ⟨tl, de, fl, ir, mr⟩
  unfold loadIndex
  dsimp only at h ⊢
  cases de
  · rfl
  · cases fl
    · rfl
    · rcases h with h | h | ⟨e, h⟩ | ⟨e, h⟩
      · exact absurd h (by simp)
      · exact absurd h (by simp)
      · rw [h]
        rfl
      · cases ir with
        | error e2 => rfl
        | ok idx =>
          rw [h]
          rfl

/-- C4 counterexample: with the sentence-transformers import missing (a
model-loading failure) but readable index artifacts, construction
completes, `is_available()` reports TRUE while the model is absent, and
every query returns the empty list — so a model-resource failure does not
put the engine into a state that `is_available()` reports as false. -/
theorem C4_model_failure_counterexample :
    (initService exModelMissingEnv).map
      (fun st => (st.is_available, st.model.isSome, st.search "q" 5 (mkRat 1 2))) =
    .ok (true, false, []) := rfl

/-- C4 (amended): failures to load the index artifacts (missing
descriptor, missing faiss library, unreadable files) leave the engine
unavailable without raising, and any query of such an engine — indeed of
any engine lacking its model, index or metadata — returns the empty
list; but `is_available()` inspects only the index and metadata, so a
missing embedding-model library leaves queries empty while availability
may still read true, and an embedding-model constructor error propagates
as an exception out of initialization. -/
theorem C4_unavailable_behavior :
    (∀ env st, initService env = .ok st →
      (env.descriptorExists = false ∨ env.faissLib = false ∨
        (∃ e, env.indexRead = .error e) ∨ (∃ e, env.metadataRead = .error e)) →
      st.is_available = false ∧ ∀ q k th, st.search q k th = []) ∧
    (∀ st q k th, ServiceState.is_available st = false → st.search q k th = []) ∧
    (∀ (st : ServiceState) q k th, st.model = none → st.search q k th = []) ∧
    (∀ env e, env.transformerLib = some (.error e) → initService env = .error e) := by
  refine ⟨?_, ?_, ?_, ?_⟩
  · intro env st hok hfail
    unfold initService at hok
    cases hm : loadModel env.transformerLib with
    | error e => rw [hm] at hok; cases hok
    | ok m =>
      rw [hm] at hok
      dsimp only at hok
      rw [loadIndex_fail env hfail] at hok
      cases hok
      exact ⟨rfl, fun q k th => search_nil_of_unavailable _ q k th rfl⟩
  · exact fun st q k th h => search_nil_of_unavailable st q k th h
  · exact fun st q k th h => search_nil_of_model_none st q k th h
  · intro env e h
    unfold initService loadModel
    rw [h]

theorem C4_unavailable_behavior_witness :
    exEmptyState.is_available = false ∧ exEmptyState.search "q" 5 0 = [] := by
  have h := C4_unavailable_behavior.1 exNoDescriptorEnv exEmptyState rfl (Or.inl rfl)
  exact ⟨h.1, h.2 "q" 5 0⟩

theorem collectRows_eq (l : List EvidRec) :
    collectRows l = ((keptSentences l).map embValue, (keptSentences l).map metaOf) := by
  induction l with
  | nil => rfl
  | cons s rest ih =>
    unfold collectRows
    rw [ih]
    cases hs : s.embedding with
    | null => simp [keptSentences, List.filter_cons, hs]
    | empty => simp [keptSentences, List.filter_cons, hs]
    | malformed => simp [keptSentences, List.filter_cons, hs]
    | valid v => simp [keptSentences, List.filter_cons, hs, embValue]

theorem keptSentences_withEmb (sentences : List EvidRec) :
    keptSentences (sentences.filter (fun s => hasEmbeddingText s.embedding)) =
      keptSentences sentences := by
  induction sentences with
  | nil => rfl
  | cons s rest ih =>
    cases hs : s.embedding <;>
      simp [keptSentences, List.filter_cons, hs, hasEmbeddingText] at ih ⊢ <;>
      simpa [keptSentences] using ih

/-- C9: a successful index build emits the metadata list in exact
positional correspondence with the vectors added to the index — both are
images of the same ordered list of kept sentences, so the i-th metadata
row describes the sentence whose embedding sits at index position i, and
the two artifacts have equal length. -/
theorem C9_metadata_index_correspondence (force indexExists : Bool)
    (sentences : List EvidRec) (emb : List (List ℚ)) (meta : List MetaRow) (d n : Nat)
    (h : buildFaissIndex force indexExists sentences = .built emb meta d n) :
    emb = (keptSentences sentences).map embValue ∧
    meta = (keptSentences sentences).map metaOf ∧
    meta.length = emb.length ∧ n = emb.length := by
  unfold buildFaissIndex at h
  split at h
  · cases h
  · dsimp only at h
    rw [collectRows_eq, keptSentences_withEmb] at h
    split at h
    · cases h
    · split at h
      · cases h
      · injection h with h1 h2 h3 h4
        subst h1
        subst h2
        subst h4
        exact ⟨rfl, rfl, by simp, rfl⟩

theorem C9_metadata_index_correspondence_witness :
    [[(1 : ℚ), 0]] = (keptSentences [exEvid, exEvidValid]).map embValue ∧
    [metaOf exEvidValid] = (keptSentences [exEvid, exEvidValid]).map metaOf ∧
    ([metaOf exEvidValid] : List MetaRow).length = ([[(1 : ℚ), 0]] : List (List ℚ)).length ∧
    1 = ([[(1 : ℚ), 0]] : List (List ℚ)).length :=
  C9_metadata_index_correspondence true false [exEvid, exEvidValid]
    [[1, 0]] [metaOf exEvidValid] 2 1 rfl

theorem upsert_notMem (db : List TripleRow) (st subj : Nat) (rel : String) (obj : Nat)
    (ev : Option Nat) (q : Qualifiers)
    (h : (st, subj, rel, obj) ∉ keysOf db) :
    upsertTriple db st subj rel obj ev q =
      (db ++ [{ study := st, subject := subj, relation := rel, object := obj,
                evidence := ev, qualifiers := q,
                confidence := if ev.isSome then mkRat 3 5 else mkRat 3 10 }], true) := by
  induction db with
  | nil => rfl
  | cons r rest ih =>
    rw [keysOf, List.map_cons, List.mem_cons] at h
    push_neg at h
    unfold upsertTriple
    rw [if_neg (fun hh => h.1 hh.symm), ih h.2]
    rfl

theorem upsert_found_upgrade (pre post : List TripleRow) (row : TripleRow)
    (st subj : Nat) (rel : String) (obj : Nat) (ev : Option Nat) (q : Qualifiers)
    (hpre : ∀ r ∈ pre, keyOf r ≠ (st, subj, rel, obj))
    (hrow : keyOf row = (st, subj, rel, obj))
    (hev : ev.isSome) (hnone : row.evidence = none) :
    upsertTriple (pre ++ row :: post) st subj rel obj ev q =
      (pre ++ { row with evidence := ev, qualifiers := q,
                         confidence := mkRat 3 5 } :: post, false) := by
  induction pre with
  | nil =>
    simp only [List.nil_append]
    unfold upsertTriple
    rw [if_pos hrow, if_pos ⟨hev, hnone⟩]
  | cons r pre ih =>
    have h1 : keyOf r ≠ (st, subj, rel, obj) := hpre r (List.mem_cons_self r pre)
    simp only [List.cons_append]
    unfold upsertTriple
    rw [if_neg h1, ih (fun x hx => hpre x (List.mem_cons_of_mem r hx))]

theorem upsert_found_unchanged (pre post : List TripleRow) (row : TripleRow)
    (st subj : Nat) (rel : String) (obj : Nat) (ev : Option Nat) (q : Qualifiers)
    (hpre : ∀ r ∈ pre, keyOf r ≠ (st, subj, rel, obj))
    (hrow : keyOf row = (st, subj, rel, obj))
    (hno : ¬(ev.isSome ∧ row.evidence = none)) :
    upsertTriple (pre ++ row :: post) st subj rel obj ev q =
      (pre ++ row :: post, false) := by
  induction pre with
  | nil =>
    simp only [List.nil_append]
    unfold upsertTriple
    rw [if_pos hrow, if_neg hno]
  | cons r pre ih =>
    have h1 : keyOf r ≠ (st, subj, rel, obj) := hpre r (List.mem_cons_self r pre)
    simp only [List.cons_append]
    unfold upsertTriple
    rw [if_neg h1, ih (fun x hx => hpre x (List.mem_cons_of_mem r hx))]

/-- C5: the upsert keyed by (study, subject, relation, object) appends a
new row with confidence 0.6 when evidence was found and 0.3 otherwise;
when the key is already present and the matching row lacks an evidence
link while this pass found one, exactly that row is updated in place
(evidence populated, qualifiers replaced, confidence raised to 0.6); in
every other pre-existing case the table is returned unchanged. -/
theorem C5_upsert_semantics (db : List TripleRow) (st subj : Nat) (rel : String)
    (obj : Nat) (ev : Option Nat) (q : Qualifiers) :
    ((st, subj, rel, obj) ∉ keysOf db →
      upsertTriple db st subj rel obj ev q =
        (db ++ [{ study := st, subject := subj, relation := rel, object := obj,
                  evidence := ev, qualifiers := q,
                  confidence := if ev.isSome then mkRat 3 5 else mkRat 3 10 }], true)) ∧
    (∀ pre row post, db = pre ++ row :: post →
      (∀ r ∈ pre, keyOf r ≠ (st, subj, rel, obj)) →
      keyOf row = (st, subj, rel, obj) →
      ((ev.isSome → row.evidence = none →
        upsertTriple db st subj rel obj ev q =
          (pre ++ { row with evidence := ev, qualifiers := q,
                             confidence := mkRat 3 5 } :: post, false)) ∧
       (¬(ev.isSome ∧ row.evidence = none) →
        upsertTriple db st subj rel obj ev q = (db, false)))) := by
  constructor
  · exact upsert_notMem db st subj rel obj ev q
  · intro pre row post hdb hpre hrow
    subst hdb
    exact ⟨fun hev hnone => upsert_found_upgrade pre post row st subj rel obj ev q
        hpre hrow hev hnone,
      fun hno => upsert_found_unchanged pre post row st subj rel obj ev q hpre hrow hno⟩

theorem C5_upsert_semantics_witness :
    upsertTriple [exTriple] 1 1 "affected_by" 2 (some 21) ((none, none) : Qualifiers) =
      ([{ exTriple with evidence := some 21, qualifiers := ((none, none) : Qualifiers),
                        confidence := mkRat 3 5 }], false) := by
  have h := (C5_upsert_semantics [exTriple] 1 1 "affected_by" 2 (some 21)
    ((none, none) : Qualifiers)).2 [] exTriple [] rfl (by simp) rfl
  simpa using h.1 rfl rfl

theorem keysOf_upsertTriple (db : List TripleRow) (st subj : Nat) (rel : String)
    (obj : Nat) (ev : Option Nat) (q : Qualifiers) :
    keysOf (upsertTriple db st subj rel obj ev q).1 =
      if (st, subj, rel, obj) ∈ keysOf db then keysOf db
      else keysOf db ++ [(st, subj, rel, obj)] := by
  induction db with
  | nil => simp [upsertTriple, keysOf, keyOf]
  | cons r rest ih =>
    unfold upsertTriple
    by_cases hk : keyOf r = (st, subj, rel, obj)
    · have hmem : (st, subj, rel, obj) ∈ keysOf (r :: rest) := by
        rw [keysOf, List.map_cons]
        exact hk ▸ List.mem_cons_self _ _
      rw [if_pos hk, if_pos hmem]
      by_cases hev : ev.isSome ∧ r.evidence = none
      · rw [if_pos hev]
        rfl
      · rw [if_neg hev]
    · rw [if_neg hk]
      have hiff : ((st, subj, rel, obj) ∈ keysOf (r :: rest)) ↔
          ((st, subj, rel, obj) ∈ keysOf rest) := by
        rw [keysOf, List.map_cons, List.mem_cons]
        exact or_iff_right (fun hh => hk hh.symm)
      by_cases hm : (st, subj, rel, obj) ∈ keysOf rest
      · rw [if_pos (hiff.mpr hm)]
        show keysOf (r :: (upsertTriple rest st subj rel obj ev q).1) = _
        rw [keysOf, List.map_cons, ← keysOf, ih, if_pos hm]
        rfl
      · rw [if_neg (fun hh => hm (hiff.mp hh))]
        show keysOf (r :: (upsertTriple rest st subj rel obj ev q).1) = _
        rw [keysOf, List.map_cons, ← keysOf, ih, if_neg hm]
        simp [keysOf]

theorem keysOf_applyJob (db : List TripleRow) (j : Job) :
    keysOf (applyJob db j) =
      if jobKey j ∈ keysOf db then keysOf db else keysOf db ++ [jobKey j] :=
  keysOf_upsertTriple db j.study j.subject j.relation j.object j.evidence j.qualifiers

theorem keysOf_runPass_stable (jobs : List Job) (db : List TripleRow)
    (h : ∀ j ∈ jobs, jobKey j ∈ keysOf db) :
    keysOf (runPass jobs db) = keysOf db := by
  induction jobs generalizing db with
  | nil => rfl
  | cons j rest ih =>
    have hj := h j (List.mem_cons_self j rest)
    have hkeys : keysOf (applyJob db j) = keysOf db := by
      rw [keysOf_applyJob, if_pos hj]
    have hrest := ih (applyJob db j)
      (fun x hx => hkeys ▸ h x (List.mem_cons_of_mem j hx))
    show keysOf (runPass rest (applyJob db j)) = keysOf db
    rw [hrest, hkeys]

theorem mem_keysOf_runPass (jobs : List Job) (db : List TripleRow)
    (k : Nat × Nat × String × Nat) (h : k ∈ keysOf db) :
    k ∈ keysOf (runPass jobs db) := by
  induction jobs generalizing db with
  | nil => exact h
  | cons j rest ih =>
    show k ∈ keysOf (runPass rest (applyJob db j))
    apply ih
    rw [keysOf_applyJob]
    split
    · exact h
    · exact List.mem_append_left _ h

theorem jobKey_mem_runPass (jobs : List Job) (db : List TripleRow) (j : Job)
    (h : j ∈ jobs) : jobKey j ∈ keysOf (runPass jobs db) := by
  induction jobs generalizing db with
  | nil => cases h
  | cons j0 rest ih =>
    rcases List.mem_cons.mp h with rfl | h
    · show jobKey j ∈ keysOf (runPass rest (applyJob db j))
      apply mem_keysOf_runPass
      rw [keysOf_applyJob]
      split
      next hm => exact hm
      next => exact List.mem_append_right _ (List.mem_singleton_self _)
    · exact ih (applyJob db j0) h

theorem nodup_keysOf_applyJob (db : List TripleRow) (j : Job)
    (h : (keysOf db).Nodup) : (keysOf (applyJob db j)).Nodup := by
  rw [keysOf_applyJob]
  split
  · exact h
  next hm =>
    rw [List.nodup_append]
    refine ⟨h, List.nodup_singleton _, ?_⟩
    intro a ha hb
    rw [List.mem_singleton] at hb
    subst hb
    exact hm ha

theorem nodup_keysOf_runPass (jobs : List Job) (db : List TripleRow)
    (h : (keysOf db).Nodup) : (keysOf (runPass jobs db)).Nodup := by
  induction jobs generalizing db with
  | nil => exact h
  | cons j rest ih => exact ih (applyJob db j) (nodup_keysOf_applyJob db j h)

/-- C6: running the Triple Generator pass twice over an unchanged study
(without the clear flag) is idempotent — the second pass creates no rows,
so the triple count is unchanged, and, starting from a table with
distinct identity tuples, no duplicate (study, subject, relation, object)
tuple exists afterwards. -/
theorem C6_second_run_idempotent (studyId : Nat) (occs : List OccRec)
    (sentences : List EvidRec) (db : List TripleRow)
    (h : (keysOf db).Nodup) :
    (processStudy studyId occs sentences (processStudy studyId occs sentences db)).length =
      (processStudy studyId occs sentences db).length ∧
    (keysOf (processStudy studyId occs sentences
      (processStudy studyId occs sentences db))).Nodup := by
  unfold processStudy
  set jobs := studyJobs studyId occs sentences with hjobs
  have hall : ∀ j ∈ jobs, jobKey j ∈ keysOf (runPass jobs db) :=
    fun j hj => jobKey_mem_runPass jobs db j hj
  have hstable := keysOf_runPass_stable jobs (runPass jobs db) hall
  constructor
  · have hlen : (keysOf (runPass jobs (runPass jobs db))).length =
        (keysOf (runPass jobs db)).length := by rw [hstable]
    simpa [keysOf] using hlen
  · rw [hstable]
    exact nodup_keysOf_runPass jobs db h

theorem C6_second_run_idempotent_witness :
    (processStudy 1 exOccs [] (processStudy 1 exOccs [] [])).length =
      (processStudy 1 exOccs [] []).length ∧
    (keysOf (processStudy 1 exOccs [] (processStudy 1 exOccs [] []))).Nodup :=
  C6_second_run_idempotent 1 exOccs [] [] (by simp [keysOf])

theorem bumpBucket_study (eid : Nat) (sim : ℚ) (sid : Nat) (b : StudyBucket) :
    (bumpBucket eid sim sid b).study = b.study := by
  unfold bumpBucket
  split <;> rfl

theorem insertEvid_inv (hits : List HitRec) (allowed : List Nat)
    (dict : List StudyBucket) (processed : List EvidRec) (e : EvidRec)
    (h : GroupInv hits allowed dict processed) :
    GroupInv hits allowed (insertEvid hits allowed dict e) (processed ++ [e]) := by
  obtain ⟨hnd, hb, hcov⟩ := h
  unfold insertEvid
  by_cases hal : e.study_id ∈ allowed
  · rw [if_pos hal]
    dsimp only
    by_cases hex : dict.any (fun b => b.study == e.study_id)
    · rw [if_pos hex]
      have hstudies : (dict.map (bumpBucket e.id (firstSim hits e.id) e.study_id)).map
          (fun b => b.study) = dict.map (fun b => b.study) := by
        rw [List.map_map]
        exact List.map_congr_left (fun b _ => bumpBucket_study _ _ _ b)
      refine ⟨?_, ?_, ?_⟩
      · rw [hstudies]
        exact hnd
      · intro b' hb'
        obtain ⟨b, hbmem, rfl⟩ := List.mem_map.mp hb'
        obtain ⟨hal2, hent, hmax⟩ := hb b hbmem
        unfold bumpBucket
        by_cases hbe : b.study == e.study_id
        · rw [if_pos hbe]
          have hbeq : b.study = e.study_id := beq_iff_eq.mp hbe
          refine ⟨hal2, ?_, ?_⟩
          · show b.entries ++ [(e.id, firstSim hits e.id)] =
              ((processed ++ [e]).filter (fun x => x.study_id == b.study)).map
                (fun x => (x.id, firstSim hits x.id))
            rw [List.filter_append, List.map_append, ← hent]
            have hp : (e.study_id == b.study) = true := beq_iff_eq.mpr hbeq.symm
            simp [List.filter_cons, hp]
          · show max b.maxSim (firstSim hits e.id) =
              (((b.entries ++ [(e.id, firstSim hits e.id)]).map (fun p => p.2)).foldl max 0)
            rw [List.map_append, List.foldl_append, ← hmax]
            rfl
        · rw [if_neg hbe]
          refine ⟨hal2, ?_, hmax⟩
          rw [hent, List.filter_append]
          have hp : (e.study_id == b.study) = false := by
            rw [beq_eq_false_iff_ne]
            intro hh
            exact hbe (beq_iff_eq.mpr hh.symm)
          simp [List.filter_cons, hp]
      · intro x hx hxal
        rw [hstudies]
        rcases List.mem_append.mp hx with hx | hx
        · exact hcov x hx hxal
        · rw [List.mem_singleton] at hx
          subst hx
          obtain ⟨b, hbmem, hbe⟩ := List.any_eq_true.mp hex
          rw [beq_iff_eq] at hbe
          exact hbe ▸ List.mem_map.mpr ⟨b, hbmem, rfl⟩
    · rw [if_neg hex]
      have hnotin : e.study_id ∉ dict.map (fun b => b.study) := by
        intro hh
        obtain ⟨b, hbmem, hbe⟩ := List.mem_map.mp hh
        exact hex (List.any_eq_true.mpr ⟨b, hbmem, beq_iff_eq.mpr hbe⟩)
      refine ⟨?_, ?_, ?_⟩
      · rw [List.map_append, List.nodup_append]
        refine ⟨hnd, by simp, ?_⟩
        intro a ha hb'
        simp only [List.map_cons, List.map_nil, List.mem_singleton] at hb'
        subst hb'
        exact hnotin ha
      · intro b' hb'
        rcases List.mem_append.mp hb' with hbm | hbm
        · obtain ⟨hal2, hent, hmax⟩ := hb b' hbm
          have hneq : b'.study ≠ e.study_id := by
            intro hh
            exact hnotin (hh ▸ List.mem_map.mpr ⟨b', hbm, rfl⟩)
          refine ⟨hal2, ?_, hmax⟩
          rw [hent, List.filter_append]
          have hp : (e.study_id == b'.study) = false :=
            beq_eq_false_iff_ne.mpr (fun hh => hneq hh.symm)
          simp [List.filter_cons, hp]
        · rw [List.mem_singleton] at hbm
          subst hbm
          refine ⟨hal, ?_, ?_⟩
          · show [(e.id, firstSim hits e.id)] =
              ((processed ++ [e]).filter (fun x => x.study_id == e.study_id)).map
                (fun x => (x.id, firstSim hits x.id))
            rw [List.filter_append]
            have hproc : processed.filter (fun x => x.study_id == e.study_id) = [] := by
              rw [List.filter_eq_nil_iff]
              intro x hx hxe
              rw [beq_iff_eq] at hxe
              exact hnotin (hxe ▸ hcov x hx (hxe ▸ hal))
            rw [hproc]
            simp [List.filter_cons]
          · rfl
      · intro x hx hxal
        rw [List.map_append]
        rcases List.mem_append.mp hx with hx | hx
        · exact List.mem_append_left _ (hcov x hx hxal)
        · rw [List.mem_singleton] at hx
          subst hx
          exact List.mem_append_right _ (by simp)
  · rw [if_neg hal]
    refine ⟨hnd, ?_, ?_⟩
    · intro b hbm
      obtain ⟨hal2, hent, hmax⟩ := hb b hbm
      have hneq : e.study_id ≠ b.study := fun hh => hal (hh ▸ hal2)
      refine ⟨hal2, ?_, hmax⟩
      rw [hent, List.filter_append]
      have hp : (e.study_id == b.study) = false := beq_eq_false_iff_ne.mpr hneq
      simp [List.filter_cons, hp]
    · intro x hx hxal
      rcases List.mem_append.mp hx with hx | hx
      · exact hcov x hx hxal
      · rw [List.mem_singleton] at hx
        subst hx
        exact absurd hxal hal

theorem foldl_insertEvid_inv (hits : List HitRec) (allowed : List Nat)
    (evs : List EvidRec) :
    ∀ dict processed, GroupInv hits allowed dict processed →
      GroupInv hits allowed (evs.foldl (insertEvid hits allowed) dict)
        (processed ++ evs) := by
  induction evs with
  | nil =>
    intro dict processed h
    simpa using h
  | cons e rest ih =>
    intro dict processed h
    rw [List.foldl_cons]
    have h2 := ih _ _ (insertEvid_inv hits allowed dict processed e h)
    simpa [List.append_assoc] using h2

theorem groupHits_inv (hits : List HitRec) (allowed : List Nat) (evStore : List EvidRec) :
    GroupInv hits allowed (groupHits hits evStore allowed)
      (evStore.filter (fun e => hits.any (fun h => h.evidence_id == e.id))) := by
  have h0 : GroupInv hits allowed [] [] := ⟨List.nodup_nil, by simp, by simp⟩
  have h := foldl_insertEvid_inv hits allowed
    (evStore.filter (fun e => hits.any (fun h => h.evidence_id == e.id))) [] [] h0
  simpa [groupHits] using h

/-- C2 counterexample: with a surviving hit of negative similarity
(reachable because the endpoint accepts caller-chosen negative
thresholds), the study's reported relevance score is 0 — the loop's
starting value — which is not the maximum similarity among the study's
surviving hits (that maximum is -1/2), nor any surviving similarity. -/
theorem C2_negative_similarity_counterexample :
    (aggregateHits [negHit] [exEvid] [7] 5).map (fun r => r.relevance_score) = [0] ∧
    studyGroupSims [negHit] [exEvid] 7 = [mkRat (-1) 2] ∧
    (0 : ℚ) ∉ studyGroupSims [negHit] [exEvid] 7 := by
  refine ⟨by decide, by decide, by decide⟩

/-- C2 (amended): in the endpoint's aggregation, every returned study lies
in the caller-supplied allow-list, its relevance score equals the fold of
`max` over its surviving hits' similarities started at 0 (hence the
maximum surviving similarity whenever any of them is nonnegative, but
floored at 0 otherwise), and the returned rows are sorted by relevance
score in non-increasing order and truncated to the caller's limit. -/
theorem C2_aggregation_amended (hits : List HitRec) (evStore : List EvidRec)
    (allowed : List Nat) (limit : Nat) :
    (∀ row ∈ aggregateHits hits evStore allowed limit,
      row.study ∈ allowed ∧
      row.relevance_score = (studyGroupSims hits evStore row.study).foldl max 0) ∧
    (aggregateHits hits evStore allowed limit).Pairwise
      (fun r r2 => r2.relevance_score ≤ r.relevance_score) ∧
    (aggregateHits hits evStore allowed limit).length ≤ limit := by
  obtain ⟨hnd, hbinv, hcov⟩ := groupHits_inv hits allowed evStore
  refine ⟨?_, ?_, ?_⟩
  · intro row hrow
    have h1 : row ∈ sortDescBy (fun r => r.relevance_score)
        ((groupHits hits evStore allowed).map bucketToRow) :=
      List.take_subset _ _ hrow
    rw [mem_sortDescBy] at h1
    obtain ⟨b, hbmem, rfl⟩ := List.mem_map.mp h1
    obtain ⟨hal, hent, hmax⟩ := hbinv b hbmem
    refine ⟨hal, ?_⟩
    show b.maxSim = (studyGroupSims hits evStore b.study).foldl max 0
    rw [hmax, hent]
    unfold studyGroupSims
    rw [List.map_map]
    rfl
  · exact List.Pairwise.sublist (List.take_sublist _ _)
      (pairwise_sortDescBy (fun r : SearchResultRow => r.relevance_score) _)
  · unfold aggregateHits
    rw [List.length_take]
    exact Nat.min_le_left _ _

theorem C2_aggregation_amended_witness :
    ({ study := 7, evidence := [11], relevance_score := 1 } : SearchResultRow).study ∈
      [7] ∧
    ({ study := 7, evidence := [11], relevance_score := 1 } : SearchResultRow).relevance_score =
      (studyGroupSims [exHit] [exEvid] 7).foldl max 0 :=
  (C2_aggregation_amended [exHit] [exEvid] [7] 5).1
    { study := 7, evidence := [11], relevance_score := 1 } (by decide)

/-- C10: after a non-empty query, the substring fallback runs only when
the engine is unavailable or the semantic query returned zero hits; when
the engine is available and the raw hit list is non-empty, the response
is labeled semantic and carries exactly the aggregation's rows — even
when metadata filtering leaves those rows empty. -/
theorem C10_fallback_dispatch (st : ServiceState) (evStore : List EvidRec)
    (filteredStudies : List StudyRec) (query : String) (limit : Nat) (threshold : ℚ) :
    (query ≠ "" → st.is_available = true →
      st.search query (limit * 2) threshold ≠ [] →
      (studySearch st evStore filteredStudies query limit threshold).search_type =
        .semantic ∧
      (studySearch st evStore filteredStudies query limit threshold).results =
        aggregateHits (st.search query (limit * 2) threshold) evStore
          (filteredStudies.map (fun s => s.id)) limit) ∧
    (query ≠ "" →
      (studySearch st evStore filteredStudies query limit threshold).search_type = .text →
      st.is_available = false ∨ st.search query (limit * 2) threshold = []) := by
  constructor
  · intro hq hav hne
    have hemp : (st.search query (limit * 2) threshold).isEmpty = false := by
      cases hs : st.search query (limit * 2) threshold with
      | nil => exact absurd hs hne
      | cons a l => rfl
    constructor <;> simp [studySearch, hq, hav, hemp]
  · intro hq ht
    by_cases hav : st.is_available = true
    · by_cases hemp : st.search query (limit * 2) threshold = []
      · exact Or.inr hemp
      · have hempb : (st.search query (limit * 2) threshold).isEmpty = false := by
          cases hs : st.search query (limit * 2) threshold with
          | nil => exact absurd hs hemp
          | cons a l => rfl
        simp [studySearch, hq, hav, hempb] at ht
    · refine Or.inl ?_
      cases hb : st.is_available
      · rfl
      · exact absurd hb hav

theorem C10_fallback_dispatch_witness :
    (studySearch exService [exEvid] [] "q" 5 0).search_type = SearchMode.semantic ∧
    (studySearch exService [exEvid] [] "q" 5 0).results = [] := by
  have h := (C10_fallback_dispatch exService [exEvid] [] "q" 5 0).1
    (by decide) rfl (by decide)
  exact ⟨h.1, by decide⟩

theorem C8_directional_orientation_witness :
    applyDirectional { id := 5, name := "x", entity_type := some "assay" }
        { id := 4, name := "y", entity_type := some "organism" } =
      orientSpec { id := 5, name := "x", entity_type := some "assay" }
        { id := 4, name := "y", entity_type := some "organism" } :=
  C8_directional_orientation _ _ (by decide) (by decide)

end BioSpace
